import Mathlib

/-!
A verification development for the saas-page-image-crawl pipeline.

The TypeScript sources are shallowly embedded: pure string/list logic is
translated directly; external effects (HTTP fetches, the blob cache, the
language-model calls, webhook POSTs, `JSON.parse`, `new URL`) are modelled
as explicit oracle inputs, so that each handler run is a pure function of
the request event and of the outcomes the outside world would produce.
JavaScript `undefined` is modelled as `Option.none`; JavaScript truthiness
on strings ("" is falsy) is modelled explicitly where the code relies on it.
Hex fingerprint strings are modelled by their numeric value (`Nat`), which
is exactly what `BigInt('0x' + h)` computes in the source.
-/

namespace Crawl

/-! ## Data model (src/lib/html-images.ts, src/lib/image-hash.ts) -/

/-- `RawImage` from src/lib/html-images.ts. -/
structure RawImage where
  url : String
  landingPage : String
  alt : Option String := none
  context : Option String := none
deriving Repr, DecidableEq

/-- One element of the `uniques` accumulator inside `dedupeImages`:
`{ img, hash, hasContentLength }`. -/
structure UEntry where
  img : RawImage
  hash : Nat
  hasContentLength : Bool
deriving Repr, DecidableEq

/-- The flattened record `{ ...u.img, hash, hasContentLength }` that
`dedupeImages` returns. -/
structure HashedImage where
  url : String
  landingPage : String
  alt : Option String := none
  context : Option String := none
  hash : Nat
  hasContentLength : Bool
deriving Repr, DecidableEq

/-! ## Hamming distance (src/lib/image-hash.ts, `ham`) -/

/-- Number of 1-bits of a natural number: models
`x.toString(2).replace(/0/g, '').length` for a non-negative BigInt `x`. -/
def onesCount (n : Nat) : Nat :=
  if h : n = 0 then 0 else n % 2 + onesCount (n / 2)
decreasing_by exact Nat.div_lt_self (Nat.pos_of_ne_zero h) (by decide)

/-- `ham` from src/lib/image-hash.ts: Hamming distance between two
fingerprints, `(BigInt('0x'+a) ^ BigInt('0x'+b)).toString(2).replace(/0/g,'').length`,
with the two hex strings represented by their numeric values. -/
def ham (a b : Nat) : Nat := onesCount (Nat.xor a b)

/-! ## dedupeImages (src/lib/image-hash.ts lines 36-74)

The network is an oracle: `fetch u` is the outcome of
`axios.get(u, {responseType: 'arraybuffer', timeout: 10_000})` —
`none` models a thrown error (403/404/timeout), `some cl` a 2xx response
whose `content-length` header is `cl` (`none` when the header is absent or
empty, i.e. falsy).  `hashOf u` is the value `getHash(u)` resolves to:
`getHash` is total (it falls back to a SHA-256 of the URL string when the
perceptual hash library fails), so the oracle is a total function. -/
structure FetchEnv where
  fetch : String → Option (Option Nat)
  hashOf : String → Nat

/-- The characters in front of the first occurrence of `stop` (the whole
list when `stop` does not occur): models `s.split(stop)[0]` for a
one-character separator. -/
def takeUntilChar (stop : Char) : List Char → List Char
  | [] => []
  | c :: cs => if c = stop then [] else c :: takeUntilChar stop cs

/-- `s.split(stop)[0]` for a one-character separator `stop`. -/
def splitHead (s : String) (stop : Char) : String :=
  String.mk (takeUntilChar stop s.data)

/-- `img.url.split('?')[0]`: the prefix of a URL before the first `?`. -/
def canon (u : String) : String := splitHead u '?'

/-- The content-length guard of `dedupeImages`:
`if (contentLength) { if (sizeInBytes < 20 * 1024) continue; }`. -/
def tooSmall : Option Nat → Bool
  | some size => size < 20 * 1024
  | none => false

/-- The `for (const img of imgs)` loop of `dedupeImages`, with the
`uniques` accumulator made explicit.  A fetch failure or an undersized
content-length skips the candidate (`continue`); a fingerprint within
Hamming distance 8 of an already-kept one skips it (`continue`); otherwise
the candidate is appended and the loop breaks once `uniques.length >= limit`. -/
def dedupeGo (env : FetchEnv) (limit : Nat) :
    List RawImage → List UEntry → List UEntry
  | [], uniques => uniques
  | img :: rest, uniques =>
    match env.fetch img.url with
    | none => dedupeGo env limit rest uniques
    | some contentLength =>
      if tooSmall contentLength then dedupeGo env limit rest uniques
      else
        let hash := env.hashOf (canon img.url)
        if uniques.any fun u => ham u.hash hash ≤ 8 then
          dedupeGo env limit rest uniques
        else
          let uniques' := uniques ++ [⟨img, hash, contentLength.isSome⟩]
          if limit ≤ uniques'.length then uniques'
          else dedupeGo env limit rest uniques'

/-- `dedupeImages` from src/lib/image-hash.ts (the deployed variant with the
20 KB content-length check).  The final `uniques.map((u) => ({...u.img,
hash: u.hash, hasContentLength: u.hasContentLength}))` is the map below. -/
def dedupeImages (env : FetchEnv) (imgs : List RawImage) (limit : Nat := 50) :
    List HashedImage :=
  (dedupeGo env limit imgs []).map fun u =>
    { url := u.img.url, landingPage := u.img.landingPage, alt := u.img.alt,
      context := u.img.context, hash := u.hash,
      hasContentLength := u.hasContentLength }

/-! ## Specification-worded deduplication (for the refinement claim)

Modelled from the spec's words, to be compared with `dedupeImages`:
candidates are processed strictly in discovery order; a candidate whose GET
fails, or whose reported content-length is under 20*1024 bytes, is skipped;
otherwise it is accepted exactly when its fingerprint is at Hamming
distance strictly greater than 8 from every already-accepted fingerprint
and the accepted set is still below the cap. -/
def dedupeSpecStep (env : FetchEnv) (limit : Nat)
    (accepted : List UEntry) (img : RawImage) : List UEntry :=
  match env.fetch img.url with
  | none => accepted
  | some contentLength =>
    if tooSmall contentLength then accepted
    else
      let fp := env.hashOf (canon img.url)
      if (∀ u ∈ accepted, 8 < ham u.hash fp) ∧ accepted.length < limit then
        accepted ++ [⟨img, fp, contentLength.isSome⟩]
      else accepted

/-- The specification-worded deduplication pass (see `dedupeSpecStep`). -/
def dedupeImagesSpec (env : FetchEnv) (imgs : List RawImage) (limit : Nat) :
    List HashedImage :=
  (imgs.foldl (dedupeSpecStep env limit) []).map fun u =>
    { url := u.img.url, landingPage := u.img.landingPage, alt := u.img.alt,
      context := u.img.context, hash := u.hash,
      hasContentLength := u.hasContentLength }

/-! ## Helper lemmas about the two deduplication passes -/

theorem dedupeSpecStep_full (env : FetchEnv) (limit : Nat)
    (accepted : List UEntry) (img : RawImage)
    (h : limit ≤ accepted.length) :
    dedupeSpecStep env limit accepted img = accepted := by
  unfold dedupeSpecStep
  cases env.fetch img.url with
  | none => rfl
  | some cl =>
    simp only
    split
    · rfl
    · rw [if_neg]
      rintro ⟨-, hlt⟩
      omega

theorem dedupeSpecFold_full (env : FetchEnv) (limit : Nat)
    (imgs : List RawImage) (accepted : List UEntry)
    (h : limit ≤ accepted.length) :
    imgs.foldl (dedupeSpecStep env limit) accepted = accepted := by
  induction imgs with
  | nil => rfl
  | cons img rest ih =>
    simp only [List.foldl_cons, dedupeSpecStep_full env limit accepted img h]
    exact ih

theorem dedupeGo_eq_foldl (env : FetchEnv) (limit : Nat)
    (imgs : List RawImage) (accepted : List UEntry)
    (h : accepted.length < limit) :
    dedupeGo env limit imgs accepted
      = imgs.foldl (dedupeSpecStep env limit) accepted := by
  induction imgs generalizing accepted with
  | nil => rfl
  | cons img rest ih =>
    rw [List.foldl_cons]
    cases hf : env.fetch img.url with
    | none =>
      rw [show dedupeSpecStep env limit accepted img = accepted by
            unfold dedupeSpecStep; rw [hf]]
      simp only [dedupeGo, hf]
      exact ih accepted h
    | some cl =>
      by_cases hsm : tooSmall cl = true
      · rw [show dedupeSpecStep env limit accepted img = accepted by
              unfold dedupeSpecStep; rw [hf]; simp [hsm]]
        simp only [dedupeGo, hf, hsm, if_true]
        exact ih accepted h
      · by_cases hdup :
          (accepted.any fun u => ham u.hash (env.hashOf (canon img.url)) ≤ 8) = true
        · have hstep : dedupeSpecStep env limit accepted img = accepted := by
            unfold dedupeSpecStep
            rw [hf]
            simp only [hsm, if_false, Bool.false_eq_true]
            rw [if_neg]
            rintro ⟨hall, -⟩
            rcases List.any_eq_true.mp hdup with ⟨u, hu, hle⟩
            have := hall u hu
            simp only [decide_eq_true_eq] at hle
            omega
          rw [hstep]
          simp only [dedupeGo, hf, hsm, if_false, Bool.false_eq_true, hdup, if_true]
          exact ih accepted h
        · have hall : ∀ u ∈ accepted, 8 < ham u.hash (env.hashOf (canon img.url)) := by
            intro u hu
            by_contra hle
            exact hdup (List.any_eq_true.mpr ⟨u, hu, by simpa using by omega⟩)
          have hstep : dedupeSpecStep env limit accepted img
              = accepted ++ [⟨img, env.hashOf (canon img.url), cl.isSome⟩] := by
            unfold dedupeSpecStep
            rw [hf]
            simp only [hsm, if_false, Bool.false_eq_true]
            rw [if_pos ⟨hall, h⟩]
          rw [hstep]
          have hlen :
              (accepted ++ [(⟨img, env.hashOf (canon img.url), cl.isSome⟩ : UEntry)]).length
                = accepted.length + 1 := by simp
          by_cases hfull :
            limit ≤ (accepted ++ [(⟨img, env.hashOf (canon img.url), cl.isSome⟩ : UEntry)]).length
          · simp only [dedupeGo, hf, hsm, if_false, Bool.false_eq_true, hdup]
            rw [if_pos hfull, dedupeSpecFold_full env limit rest _ hfull]
          · simp only [dedupeGo, hf, hsm, if_false, Bool.false_eq_true, hdup]
            rw [if_neg hfull]
            exact ih _ (by omega)

theorem dedupeSpecStep_length_le (env : FetchEnv) (limit : Nat)
    (accepted : List UEntry) (img : RawImage)
    (h : accepted.length ≤ limit) :
    (dedupeSpecStep env limit accepted img).length ≤ limit := by
  unfold dedupeSpecStep
  cases env.fetch img.url with
  | none => exact h
  | some cl =>
    simp only
    split
    · exact h
    · split
      · next hc => simp; omega
      · exact h

theorem dedupeSpecFold_length_le (env : FetchEnv) (limit : Nat)
    (imgs : List RawImage) (accepted : List UEntry)
    (h : accepted.length ≤ limit) :
    (imgs.foldl (dedupeSpecStep env limit) accepted).length ≤ limit := by
  induction imgs generalizing accepted with
  | nil => exact h
  | cons img rest ih =>
    exact ih _ (dedupeSpecStep_length_le env limit accepted img h)

/-- A concrete fetch environment for witnesses: every GET succeeds with a
30000-byte content-length, and fingerprints are the URL's length. -/
def envW : FetchEnv :=
  { fetch := fun _ => some (some 30000), hashOf := fun u => u.length }

/-- A concrete candidate for witnesses. -/
def imgW : RawImage := { url := "https://a.com/x.png", landingPage := "https://a.com" }

/-! ## C1 and C2 -/

/-- C1: in `dedupeImages`, candidates are processed strictly in discovery
order; every candidate whose GET succeeds and whose reported content-length
(when present) is at least 20*1024 bytes is dropped exactly when its
fingerprint is within Hamming distance 8 of an already-accepted
fingerprint, and accepted (while the accepted set is below the cap) exactly
when its distance to every already-accepted fingerprint exceeds 8 — stated
as: for every positive cap, `dedupeImages` coincides with the
specification-worded pass `dedupeImagesSpec`. -/
theorem dedupeImages_eq_spec (env : FetchEnv) (imgs : List RawImage)
    (limit : Nat) (hlim : 1 ≤ limit) :
    dedupeImages env imgs limit = dedupeImagesSpec env imgs limit := by
  unfold dedupeImages dedupeImagesSpec
  rw [dedupeGo_eq_foldl env limit imgs [] (by simpa using hlim)]

/-- Witness for `dedupeImages_eq_spec` at a concrete input. -/
theorem dedupeImages_eq_spec_witness :
    1 ≤ 50 ∧ dedupeImages envW [imgW] 50 = dedupeImagesSpec envW [imgW] 50 :=
  ⟨by decide, dedupeImages_eq_spec envW [imgW] 50 (by decide)⟩

/-- C2 counterexample: with cap `limit = 0`, `dedupeImages` still returns
one image (the `uniques.length >= limit` break fires only after the first
push), so the output length is not `≤ limit` for every cap. -/
theorem dedupeImages_limit_zero_counterexample :
    ¬ (dedupeImages envW [imgW] 0).length ≤ 0 := by decide

/-- C2 (amended): for every positive cap `limit`, the output of
`dedupeImages` has length at most `limit`, and insertion stops as soon as
the cap is reached — once the output has hit the cap, appending further
candidates leaves the output unchanged. -/
theorem dedupeImages_cap (env : FetchEnv) (imgs : List RawImage)
    (limit : Nat) (hlim : 1 ≤ limit) :
    (dedupeImages env imgs limit).length ≤ limit ∧
    ∀ rest, limit ≤ (dedupeImages env imgs limit).length →
      dedupeImages env (imgs ++ rest) limit = dedupeImages env imgs limit := by
  have hzero : ([] : List UEntry).length < limit := by simpa using hlim
  constructor
  · unfold dedupeImages
    rw [dedupeGo_eq_foldl env limit imgs [] hzero]
    simpa using dedupeSpecFold_length_le env limit imgs [] (by simp)
  · intro rest hfull
    unfold dedupeImages at hfull ⊢
    rw [dedupeGo_eq_foldl env limit imgs [] hzero] at hfull ⊢
    rw [dedupeGo_eq_foldl env limit (imgs ++ rest) [] hzero, List.foldl_append]
    rw [List.length_map] at hfull
    rw [dedupeSpecFold_full env limit rest _ hfull]

/-- Witness for `dedupeImages_cap` at a concrete input. -/
theorem dedupeImages_cap_witness :
    1 ≤ 50 ∧
    ((dedupeImages envW [imgW] 50).length ≤ 50 ∧
     ∀ rest, 50 ≤ (dedupeImages envW [imgW] 50).length →
       dedupeImages envW ([imgW] ++ rest) 50 = dedupeImages envW [imgW] 50) :=
  ⟨by decide, dedupeImages_cap envW [imgW] 50 (by decide)⟩

/-! ## parseImages (src/lib/html-images.ts)

The JSDOM parse itself is the embedding boundary.  An `HtmlDoc` records,
in document order, exactly the node data `parseImages` reads: for each
`<img>` its `src` and `alt` attributes and the trimmed surrounding text
(`getAttribute` returning null or the empty string is `none`, matching the
`|| ''` / `|| undefined` coercions in the source); for each `<source>` the
raw `srcset` attribute (`|| ''`); and for each inline-style element the
first capture group of the `background-image: url(...)` regular
expression, for those elements where it matched with a non-empty capture
(`if (m?.[1])`). -/

/-- One `<img>` element as read by `parseImages`. -/
structure ImgTag where
  src : String
  alt : Option String := none
  context : Option String := none
deriving Repr, DecidableEq

/-- An HTML document abstracted to the node data `parseImages` queries. -/
structure HtmlDoc where
  imgTags : List ImgTag
  sourceSrcsets : List String
  bgUrls : List String
deriving Repr, DecidableEq

/-- Character-list test that `pat` occurs in front of `t`. -/
def prefChars : List Char → List Char → Bool
  | [], _ => true
  | _ :: _, [] => false
  | a :: as, b :: bs => a = b && prefChars as bs

/-- Substring occurrence test: models `/pat/.test(s)` for a literal
pattern `pat`. -/
def containsStr (s pat : String) : Bool :=
  s.data.tails.any (prefChars pat.data)

/-- Suffix test on the underlying character lists: models
JavaScript string-end matching (`/pat$/.test(s)`). -/
def strEndsWith (s pat : String) : Bool :=
  prefChars pat.data.reverse s.data.reverse

/-- ASCII lower-casing of one character, as `toLowerCase()` acts on the
ASCII range (URLs in this code path are ASCII). -/
def lowerChar (c : Char) : Char :=
  if 65 ≤ c.toNat ∧ c.toNat ≤ 90 then Char.ofNat (c.toNat + 32) else c

/-- ASCII lower-casing of a string (models `url.toLowerCase()` and the
`/i` regular-expression flag). -/
def lowerStr (s : String) : String := String.mk (s.data.map lowerChar)

/-- `/\.jpe?g$|\.png$|\.webp$/i.test(url)`: the raw url — query string
included — must end, case-insensitively, in an allowed extension. -/
def allowedExt (url : String) : Bool :=
  let l := lowerStr url
  strEndsWith l ".jpg" || strEndsWith l ".jpeg" ||
    strEndsWith l ".png" || strEndsWith l ".webp"

/-- `/(sprite|icon|logo|favicon|avatar|testimonial)/i.test(url)`. -/
def hasBadToken (url : String) : Bool :=
  let l := lowerStr url
  containsStr l "sprite" || containsStr l "icon" || containsStr l "logo" ||
    containsStr l "favicon" || containsStr l "avatar" || containsStr l "testimonial"

/-- The `pushUnique` helper of `parseImages`: despite its name it keeps no
set — it rejects the empty string, references without an allowed
extension, and references containing an excluded token, and otherwise
appends the reference verbatim (`out.push({ url, landingPage, alt,
context })`).  Modelled as the optional element contributed to `out`. -/
def pushUnique (url landingPage : String) (alt context : Option String) :
    Option RawImage :=
  if url = "" then none
  else if ¬ allowedExt url then none
  else if hasBadToken url then none
  else some { url := url, landingPage := landingPage, alt := alt, context := context }

/-- Whitespace for the purposes of `trim()` (the characters occurring in
attribute values on this code path). -/
def isJsWs (c : Char) : Bool :=
  c = ' ' || c = '\t' || c = '\n' || c = '\r'

/-- `s.trim()`. -/
def strTrim (s : String) : String :=
  String.mk (((s.data.dropWhile isJsWs).reverse.dropWhile isJsWs).reverse)

/-- Beginning-of-string test: models `s.startsWith(pat)`. -/
def strStartsWith (s pat : String) : Bool :=
  prefChars pat.data s.data

/-- `ss.split(',')[0]?.trim().split(' ')[0] || ''`: the URL of the first
candidate in a `srcset` attribute. -/
def firstSrcsetCandidate (ss : String) : String :=
  splitHead (strTrim (splitHead ss ',')) ' '

/-- `parseImages` from src/lib/html-images.ts: one pass over `<img>`
elements, one over `<source srcset>` elements, one over inline
`background-image` styles, each appending to `out` through `pushUnique`. -/
def parseImages (doc : HtmlDoc) (landingPage : String) : List RawImage :=
  (doc.imgTags.filterMap fun t => pushUnique t.src landingPage t.alt t.context) ++
  (doc.sourceSrcsets.filterMap fun ss =>
    pushUnique (firstSrcsetCandidate ss) landingPage none none) ++
  (doc.bgUrls.filterMap fun u => pushUnique u landingPage none none)

theorem pushUnique_some (url landingPage : String) (alt context : Option String)
    (e : RawImage) (h : pushUnique url landingPage alt context = some e) :
    e.url = url ∧ e.landingPage = landingPage ∧
    allowedExt url = true ∧ hasBadToken url = false := by
  unfold pushUnique at h
  by_cases h1 : url = "" <;> simp only [h1, if_true, if_false] at h
  · cases h
  · by_cases h2 : allowedExt url = true
    · simp only [h2, not_true, if_false, ite_not] at h
      by_cases h3 : hasBadToken url = true
      · simp [h3] at h
      · simp only [h3, if_false, Bool.false_eq_true, if_true] at h
        cases h
        exact ⟨rfl, rfl, h2, by simpa using h3⟩
    · simp [h2] at h

theorem mem_parseImages (doc : HtmlDoc) (landingPage : String) (e : RawImage)
    (he : e ∈ parseImages doc landingPage) :
    (∃ t ∈ doc.imgTags, pushUnique t.src landingPage t.alt t.context = some e) ∨
    (∃ ss ∈ doc.sourceSrcsets,
      pushUnique (firstSrcsetCandidate ss) landingPage none none = some e) ∨
    (∃ u ∈ doc.bgUrls, pushUnique u landingPage none none = some e) := by
  unfold parseImages at he
  rcases List.mem_append.mp he with h | h
  · rcases List.mem_append.mp h with h | h
    · rcases List.mem_filterMap.mp h with ⟨t, ht, hp⟩
      exact Or.inl ⟨t, ht, hp⟩
    · rcases List.mem_filterMap.mp h with ⟨ss, hs, hp⟩
      exact Or.inr (Or.inl ⟨ss, hs, hp⟩)
  · rcases List.mem_filterMap.mp h with ⟨u, hu, hp⟩
    exact Or.inr (Or.inr ⟨u, hu, hp⟩)

/-! ## C5, C6, C7 -/

/-- A document whose only image element is `<img src="shots/a.png">`. -/
def docRel : HtmlDoc := { imgTags := [{ src := "shots/a.png" }], sourceSrcsets := [], bgUrls := [] }

/-- C5 counterexample: a relative `src` reference harvested from a page at
`https://example.com/page` is emitted verbatim — it is not resolved
against the base page URL and the produced url is not absolute. -/
theorem parseImages_relative_url_counterexample :
    (parseImages docRel "https://example.com/page").map (fun e => e.url)
      = ["shots/a.png"] ∧
    strStartsWith "shots/a.png" "http" = false := by decide

/-- C5 (amended): every candidate produced by `parseImages` carries the
reference text verbatim — its url is literally an `<img>` `src` attribute,
the first `srcset` candidate of a `<source>`, or a `background-image`
capture of the document, with no resolution against the base page URL and
no URL well-formedness check — and its landing page is the page URL. -/
theorem parseImages_urls_verbatim (doc : HtmlDoc) (lp : String) (e : RawImage)
    (he : e ∈ parseImages doc lp) :
    e.landingPage = lp ∧
    ((∃ t ∈ doc.imgTags, t.src = e.url) ∨
     (∃ ss ∈ doc.sourceSrcsets, firstSrcsetCandidate ss = e.url) ∨
     e.url ∈ doc.bgUrls) := by
  rcases mem_parseImages doc lp e he with ⟨t, ht, hp⟩ | ⟨ss, hs, hp⟩ | ⟨u, hu, hp⟩
  · rcases pushUnique_some _ _ _ _ _ hp with ⟨hurl, hlp, -, -⟩
    exact ⟨hlp, Or.inl ⟨t, ht, hurl.symm⟩⟩
  · rcases pushUnique_some _ _ _ _ _ hp with ⟨hurl, hlp, -, -⟩
    exact ⟨hlp, Or.inr (Or.inl ⟨ss, hs, hurl.symm⟩)⟩
  · rcases pushUnique_some _ _ _ _ _ hp with ⟨hurl, hlp, -, -⟩
    exact ⟨hlp, Or.inr (Or.inr (hurl ▸ hu))⟩

/-- Witness for `parseImages_urls_verbatim` at a concrete document. -/
theorem parseImages_urls_verbatim_witness :
    (⟨"shots/a.png", "https://example.com/page", none, none⟩ : RawImage)
      ∈ parseImages docRel "https://example.com/page" ∧
    ((⟨"shots/a.png", "https://example.com/page", none, none⟩ : RawImage).landingPage
        = "https://example.com/page" ∧
     ((∃ t ∈ docRel.imgTags,
        t.src = (⟨"shots/a.png", "https://example.com/page", none, none⟩ : RawImage).url) ∨
      (∃ ss ∈ docRel.sourceSrcsets,
        firstSrcsetCandidate ss
          = (⟨"shots/a.png", "https://example.com/page", none, none⟩ : RawImage).url) ∨
      (⟨"shots/a.png", "https://example.com/page", none, none⟩ : RawImage).url
        ∈ docRel.bgUrls)) :=
  ⟨by decide,
   parseImages_urls_verbatim docRel "https://example.com/page" _ (by decide)⟩

/-- The duplicated `<img>` tag used against C6. -/
def tagDup : ImgTag := { src := "https://a.com/x.png" }

/-- C6 counterexample: a document containing the same `<img>` reference
twice yields two candidates with the same canonical URL — `parseImages`
keeps no per-document set of seen URLs. -/
theorem parseImages_duplicate_counterexample :
    (parseImages { imgTags := [tagDup, tagDup], sourceSrcsets := [], bgUrls := [] }
        "https://a.com").map (fun e => canon e.url)
      = ["https://a.com/x.png", "https://a.com/x.png"] := by decide

/-- C6 (amended): `parseImages` performs no within-document
deduplication: every reference that passes the format and token filters is
appended in discovery order, so re-adding the same reference twice
produces two entries. -/
theorem parseImages_no_dedup (t : ImgTag) (lp : String) (e : RawImage)
    (h : pushUnique t.src lp t.alt t.context = some e) :
    parseImages { imgTags := [t, t], sourceSrcsets := [], bgUrls := [] } lp = [e, e] := by
  unfold parseImages
  simp [h]

/-- Witness for `parseImages_no_dedup` at a concrete tag. -/
theorem parseImages_no_dedup_witness :
    pushUnique tagDup.src "https://a.com" tagDup.alt tagDup.context
      = some ⟨"https://a.com/x.png", "https://a.com", none, none⟩ ∧
    parseImages { imgTags := [tagDup, tagDup], sourceSrcsets := [], bgUrls := [] }
        "https://a.com"
      = [⟨"https://a.com/x.png", "https://a.com", none, none⟩,
         ⟨"https://a.com/x.png", "https://a.com", none, none⟩] :=
  ⟨by decide, parseImages_no_dedup tagDup "https://a.com" _ (by decide)⟩

/-- The query-string URL used against C7. -/
def docQuery : HtmlDoc :=
  { imgTags := [{ src := "https://cdn.com/get?f=x.png" }], sourceSrcsets := [], bgUrls := [] }

/-- C7 counterexample: an image reference carrying a query string is not
necessarily rejected — a url whose query string itself ends in an allowed
extension passes the `/\.jpe?g$|\.png$|\.webp$/i` test and is emitted. -/
theorem parseImages_query_url_counterexample :
    (parseImages docQuery "https://cdn.com").map (fun e => e.url)
      = ["https://cdn.com/get?f=x.png"] ∧
    "https://cdn.com/get?f=x.png".data.contains '?' = true := by decide

/-- C7 (amended): every candidate emitted by `parseImages` has a url whose
raw text — query string included — ends, case-insensitively, in `.jpg`,
`.jpeg`, `.png` or `.webp` (so references whose full text does not end in
an allowed extension, e.g. typical query-string or extension-less CDN
urls, are rejected at harvest time, though a url whose query string ends
in an allowed extension is accepted), and every emitted url is free of the
tokens sprite, icon, logo, favicon, avatar and testimonial. -/
theorem parseImages_ext_and_token_invariant (doc : HtmlDoc) (lp : String)
    (e : RawImage) (he : e ∈ parseImages doc lp) :
    (strEndsWith (lowerStr e.url) ".jpg" = true ∨
     strEndsWith (lowerStr e.url) ".jpeg" = true ∨
     strEndsWith (lowerStr e.url) ".png" = true ∨
     strEndsWith (lowerStr e.url) ".webp" = true) ∧
    containsStr (lowerStr e.url) "sprite" = false ∧
    containsStr (lowerStr e.url) "icon" = false ∧
    containsStr (lowerStr e.url) "logo" = false ∧
    containsStr (lowerStr e.url) "favicon" = false ∧
    containsStr (lowerStr e.url) "avatar" = false ∧
    containsStr (lowerStr e.url) "testimonial" = false := by
  have hok : allowedExt e.url = true ∧ hasBadToken e.url = false := by
    rcases mem_parseImages doc lp e he with ⟨t, _, hp⟩ | ⟨ss, _, hp⟩ | ⟨u, _, hp⟩ <;>
      rcases pushUnique_some _ _ _ _ _ hp with ⟨hurl, -, hext, htok⟩ <;>
      exact hurl ▸ ⟨hext, htok⟩
  rcases hok with ⟨hext, htok⟩
  unfold allowedExt at hext
  unfold hasBadToken at htok
  simp only [Bool.or_eq_true] at hext
  simp only [Bool.or_eq_false_iff] at htok
  refine ⟨by tauto, ?_, ?_, ?_, ?_, ?_, ?_⟩ <;> tauto

/-- Witness for `parseImages_ext_and_token_invariant` at a concrete document. -/
theorem parseImages_ext_and_token_invariant_witness :
    (⟨"https://cdn.com/get?f=x.png", "https://cdn.com", none, none⟩ : RawImage)
      ∈ parseImages docQuery "https://cdn.com" ∧
    (strEndsWith (lowerStr "https://cdn.com/get?f=x.png") ".png" = true ∧
     containsStr (lowerStr "https://cdn.com/get?f=x.png") "logo" = false) := by
  refine ⟨by decide, ?_, ?_⟩
  · have h := (parseImages_ext_and_token_invariant docQuery "https://cdn.com"
      ⟨"https://cdn.com/get?f=x.png", "https://cdn.com", none, none⟩ (by decide)).1
    rcases h with h | h | h | h
    · exact absurd h (by decide)
    · exact absurd h (by decide)
    · exact h
    · exact absurd h (by decide)
  · exact (parseImages_ext_and_token_invariant docQuery "https://cdn.com"
      ⟨"https://cdn.com/get?f=x.png", "https://cdn.com", none, none⟩ (by decide)).2.2.2.1

/-! ## The enrichment merge (src/handlers/index.ts, STEP 5)

`analyseImages` is an external language-model capability; its reply rows
are modelled by `MiniResult` with every field optional, since the raw
model output is pushed through with at most shallow normalisation.  The
merge only ever reads `url` and `alt`. -/

/-- JavaScript truthiness of a possibly-undefined string. -/
def truthy : Option String → Bool
  | some s => s ≠ ""
  | none => false

/-- One enrichment reply row, as read by the merge step. -/
structure MiniResult where
  url : Option String := none
  alt : Option String := none
deriving Repr, DecidableEq

/-- The handler's `canon` helper:
`const canon = (u) => (u ? u.split('?')[0] : '')`. -/
def jsCanon : Option String → String
  | some u => if u = "" then "" else canon u
  | none => ""

/-- `new Map(analysed.filter((a) => a.url).map((a) => [canon(a.url), a]))`
as its entry list, in insertion order. -/
def aiByUrl (analysed : List MiniResult) : List (String × MiniResult) :=
  (analysed.filter fun a => truthy a.url).map fun a => (jsCanon a.url, a)

/-- `Map.get`: later entries of the construction list overwrite earlier
ones, so the lookup returns the last matching entry. -/
def mapGet (entries : List (String × MiniResult)) (k : String) : Option MiniResult :=
  (entries.reverse.find? fun p => p.1 == k).map fun p => p.2

/-- An element of the final `images` array of the response payload. -/
structure FinalImage where
  url : String
  alt : String
  landing_page : String
  hash : Nat
deriving Repr, DecidableEq

/-- The `imagesFinal` merge of the handler (STEP 5): one output entry per
pre-enrichment candidate, with `alt` taken from the enrichment row found
under the candidate's canonical URL (`ai?.alt`), else the harvested alt,
else the empty string. -/
def imagesFinal (analysed : List MiniResult) (limitedImgs : List HashedImage) :
    List FinalImage :=
  limitedImgs.map fun raw =>
    let ai := mapGet (aiByUrl analysed) (jsCanon (some raw.url))
    { url := raw.url,
      alt := ((ai.bind fun a => a.alt).orElse fun _ => raw.alt).getD "",
      landing_page := raw.landingPage,
      hash := raw.hash }

/-! ## C4 -/

/-- C4: enrichment is a pure additive join — the merged list stands in a
pointwise correspondence with the pre-enrichment candidate list (same
length, same order, no candidate removed), every entry preserves the
candidate's `url`, `landing_page` and `hash` unchanged, and the only
field taken from the enrichment result is `alt`, which otherwise falls
back to the harvested alt text and then to the empty string. -/
theorem imagesFinal_additive_join (analysed : List MiniResult)
    (limitedImgs : List HashedImage) :
    List.Forall₂ (fun (raw : HashedImage) (e : FinalImage) =>
        e.url = raw.url ∧ e.landing_page = raw.landingPage ∧ e.hash = raw.hash ∧
        ((∃ a, mapGet (aiByUrl analysed) (jsCanon (some raw.url)) = some a ∧
            a.alt = some e.alt) ∨
         e.alt = raw.alt.getD ""))
      limitedImgs (imagesFinal analysed limitedImgs) := by
  unfold imagesFinal
  induction limitedImgs with
  | nil => exact List.Forall₂.nil
  | cons raw rest ih =>
    rw [List.map_cons]
    refine List.Forall₂.cons ⟨rfl, rfl, rfl, ?_⟩ ih
    cases hai : mapGet (aiByUrl analysed) (jsCanon (some raw.url)) with
    | none =>
      right
      simp only [hai, Option.bind_eq_bind, Option.none_bind, Option.none_orElse]
      cases raw.alt <;> rfl
    | some a =>
      cases halt : a.alt with
      | none =>
        right
        simp only [hai, Option.bind_eq_bind, Option.some_bind, halt, Option.none_orElse]
        cases raw.alt <;> rfl
      | some s =>
        left
        exact ⟨a, rfl, by simp [halt]⟩

/-! ## The webhook notifier (src/handlers/index.ts, `sendWebhook`)

`sendWebhook(webhookUrl, data, retries = 3)` runs a `for` loop of at most
`retries` iterations; each iteration issues one POST (10 s timeout); a
success returns immediately; a failure on the last iteration rethrows;
any other failure awaits `Math.pow(2, i) * 1000` milliseconds and
retries.  The network is an oracle `attempt : Nat → Bool` giving the
outcome of the i-th POST. -/

/-- The observable effect of one `sendWebhook` call: how many POSTs were
issued, which backoff delays (in milliseconds) were awaited between
consecutive failed attempts, and whether the call returned normally
(`true`) or threw after exhausting the budget (`false`). -/
structure WebhookTrace where
  attempts : Nat
  delaysMs : List Nat
  delivered : Bool
deriving Repr, DecidableEq

/-- The retry loop of `sendWebhook`, from attempt index `i` on. -/
def sendWebhookGo (attempt : Nat → Bool) (retries i : Nat) : WebhookTrace :=
  if _h : i < retries then
    if attempt i then { attempts := 1, delaysMs := [], delivered := true }
    else if i = retries - 1 then { attempts := 1, delaysMs := [], delivered := false }
    else
      let t := sendWebhookGo attempt retries (i + 1)
      { attempts := t.attempts + 1, delaysMs := 2 ^ i * 1000 :: t.delaysMs,
        delivered := t.delivered }
  else { attempts := 0, delaysMs := [], delivered := true }
termination_by retries - i
decreasing_by omega

/-- `sendWebhook` from src/handlers/index.ts, as its observable trace. -/
def sendWebhook (attempt : Nat → Bool) (retries : Nat := 3) : WebhookTrace :=
  sendWebhookGo attempt retries 0

theorem sendWebhookGo_attempts_pos (attempt : Nat → Bool) (retries i : Nat)
    (hi : i < retries) :
    1 ≤ (sendWebhookGo attempt retries i).attempts := by
  rw [sendWebhookGo, dif_pos hi]
  by_cases ha : attempt i = true
  · rw [if_pos ha]
  · rw [if_neg ha]
    by_cases hl : i = retries - 1
    · rw [if_pos hl]
    · rw [if_neg hl]
      simp only
      omega

theorem sendWebhookGo_attempts_le (attempt : Nat → Bool) (retries : Nat) :
    ∀ k i, retries - i ≤ k →
      (sendWebhookGo attempt retries i).attempts ≤ retries - i := by
  intro k
  induction k with
  | zero =>
    intro i hk
    rw [sendWebhookGo, dif_neg (by omega)]
    exact Nat.zero_le _
  | succ k ih =>
    intro i hk
    by_cases hi : i < retries
    · rw [sendWebhookGo, dif_pos hi]
      by_cases ha : attempt i = true
      · rw [if_pos ha]
        simp only
        omega
      · rw [if_neg ha]
        by_cases hl : i = retries - 1
        · rw [if_pos hl]
          simp only
          omega
        · rw [if_neg hl]
          have := ih (i + 1) (by omega)
          simp only
          omega
    · rw [sendWebhookGo, dif_neg hi]
      exact Nat.zero_le _

theorem sendWebhookGo_delays (attempt : Nat → Bool) (retries : Nat) :
    ∀ k i, retries - i ≤ k →
      (sendWebhookGo attempt retries i).delaysMs
        = (List.range' i ((sendWebhookGo attempt retries i).attempts - 1)).map
            fun j => 2 ^ j * 1000 := by
  intro k
  induction k with
  | zero =>
    intro i hk
    rw [sendWebhookGo, dif_neg (by omega)]
    simp
  | succ k ih =>
    intro i hk
    by_cases hi : i < retries
    · rw [sendWebhookGo, dif_pos hi]
      by_cases ha : attempt i = true
      · rw [if_pos ha]
        simp
      · rw [if_neg ha]
        by_cases hl : i = retries - 1
        · rw [if_pos hl]
          simp
        · rw [if_neg hl]
          have hrec := ih (i + 1) (by omega)
          have hpos := sendWebhookGo_attempts_pos attempt retries (i + 1) (by omega)
          simp only [Nat.add_sub_cancel]
          rw [hrec]
          cases hn : (sendWebhookGo attempt retries (i + 1)).attempts with
          | zero => omega
          | succ n => simp [hn, List.range'_succ]
    · rw [sendWebhookGo, dif_neg hi]
      simp

/-! ## The Lambda handler (src/handlers/index.ts, webhook variant)

The handler is a pure function of the request event and of an environment
describing every outcome the outside world would produce during the run:
`JSON.parse` and `new URL` behaviour, the S3 cache read/write outcomes,
the Firecrawl homepage scrape, the remainder of the pipeline (steps 2-5,
abstracted to the final image list it produces or the error it throws),
the webhook POST outcomes, and the runtime-generated identifiers,
timestamps and stack traces.  A `JsError` is a thrown JavaScript error as
the catch block observes it. -/

/-- The request body fields the handler destructures. -/
structure ReqBody where
  url : Option String := none
  force_refresh : Bool := false
  webhook_url : Option String := none
  job_id : Option String := none
deriving Repr, DecidableEq

/-- A thrown JavaScript error, as read by the catch block: `.message`,
`.response?.data` (abstracted to its serialized form) and `.stack`. -/
structure JsError where
  message : Option String := none
  responseData : Option String := none
  stack : Option String := none
deriving Repr, DecidableEq

/-- The incoming API-Gateway event (only `event.body` is read). -/
structure LambdaEvent where
  body : Option String := none
deriving Repr, DecidableEq

/-- The success payload `result` (job id, status "completed", source URL,
timestamp, duration, final image list). -/
structure SuccessBody where
  job_id : String
  status : String
  source_url : String
  generated_at : String
  processing_time_ms : Nat
  images : List FinalImage
deriving Repr, DecidableEq

/-- The failure payload `errorResult`; `source_url` is `none` when the
re-parsed body has no `url` (the field is then absent from the JSON). -/
structure ErrorBody where
  job_id : String
  status : String
  source_url : Option String
  generated_at : String
  processing_time_ms : Nat
  error : String
  details : String
deriving Repr, DecidableEq

/-- A response body is either the success payload or the failure payload. -/
inductive RespBody where
  | success (b : SuccessBody)
  | failure (b : ErrorBody)
deriving Repr, DecidableEq

/-- The value the handler resolves with. -/
structure HttpResponse where
  statusCode : Nat
  body : RespBody
deriving Repr, DecidableEq

/-- JavaScript `x || d` for a possibly-undefined string `x`. -/
def jsOrS : Option String → String → String
  | some s, d => if s = "" then d else s
  | none, d => d

/-- The outside world as observed during one handler invocation. -/
structure HandlerEnv where
  /-- `JSON.parse` on the request body; `none` models a SyntaxError throw. -/
  parseBody : String → Option ReqBody
  /-- the SyntaxError `JSON.parse` raises on the given malformed text. -/
  parseErr : String → JsError
  /-- the stack trace the runtime captures for `new Error(msg)`. -/
  errStack : String → Option String
  /-- `new URL(u).protocol`, or `none` when `new URL` throws. -/
  urlProtocol : String → Option String
  /-- the TypeError `new URL` raises on a malformed URL. -/
  urlErr : String → JsError
  /-- the generated id `job_${Date.now()}_${random}`. -/
  freshJobId : String
  /-- the fallback id `error_${Date.now()}`. -/
  freshErrorId : String
  /-- `new Date().toISOString()` at payload-assembly time. -/
  nowIso : String
  /-- `Date.now() - startTime` at payload-assembly time. -/
  elapsedMs : Nat
  /-- `getObject(key)` for the homepage cache entry: `.ok none` is a 404
  miss (returned as `undefined`), `.error` a rethrown storage failure. -/
  cacheGet : Except JsError (Option String)
  /-- `putObject(key, homepage, 86400)`: the write-through to the cache. -/
  cachePut : Except JsError Unit
  /-- `firecrawlScrape(url, ...)` for the homepage, abstracted to the
  payload value the rest of the pipeline consumes. -/
  scrapeHome : Except JsError String
  /-- steps 2-5 of the pipeline (link filter, sub-page scrapes, harvest,
  fallback extraction, dedupe, upload, dimension filter, enrichment
  merge), abstracted to the final image list produced from the homepage
  payload, or the error thrown. -/
  pipelineRest : String → Except JsError (List FinalImage)
  /-- outcome oracle for webhook POSTs: call index (0 = the `started`
  event, 1 = the `completed` or `failed` event) and attempt index. -/
  webhookAttempt : Nat → Nat → Bool

/-- `new Error(msg)`: message `msg`, no upstream response data, and the
stack trace the runtime captures. -/
def HandlerEnv.mkError (env : HandlerEnv) (msg : String) : JsError :=
  { message := some msg, responseData := none, stack := env.errStack msg }

/-- A throw escaping the `try` block, together with the values the
`jobId` and `webhookUrl` variables held at that moment. -/
structure ThrowState where
  err : JsError
  jobId : Option String
  webhookUrl : Option String
deriving Repr, DecidableEq

/-- The `try` block of the handler: validation, the started webhook, the
cached homepage fetch (STEP 1), the abstracted steps 2-5, the success
payload and the completed webhook.  Webhook outcomes are computed and
discarded, mirroring the `try { await sendWebhook(...) } catch { ... }`
wrappers that swallow delivery failures. -/
def handlerTry (env : HandlerEnv) (event : LambdaEvent) :
    Except ThrowState SuccessBody :=
  if ¬ truthy event.body then .error ⟨env.mkError "body missing", none, none⟩
  else
    let bodyStr := event.body.getD ""
    match env.parseBody bodyStr with
    | none => .error ⟨env.parseErr bodyStr, none, none⟩
    | some b =>
      if ¬ truthy b.url then .error ⟨env.mkError "url missing", none, none⟩
      else
        let url := b.url.getD ""
        let webhookUrl := b.webhook_url
        let jobIdv := jsOrS b.job_id env.freshJobId
        match env.urlProtocol url with
        | none => .error ⟨env.urlErr url, some jobIdv, webhookUrl⟩
        | some proto =>
          if ¬ (proto = "http:" ∨ proto = "https:") then
            .error ⟨env.mkError "url must start with http/https", some jobIdv, webhookUrl⟩
          else
            let _startedTrace :=
              if truthy webhookUrl then some (sendWebhook (env.webhookAttempt 0) 3)
              else none
            match env.cacheGet with
            | .error e => .error ⟨e, some jobIdv, webhookUrl⟩
            | .ok cached =>
              let homepageE : Except JsError String :=
                if cached = none ∨ b.force_refresh = true then
                  match env.scrapeHome with
                  | .error e => .error e
                  | .ok hp =>
                    match env.cachePut with
                    | .error e => .error e
                    | .ok _ => .ok hp
                else .ok (cached.getD "")
              match homepageE with
              | .error e => .error ⟨e, some jobIdv, webhookUrl⟩
              | .ok hp =>
                match env.pipelineRest hp with
                | .error e => .error ⟨e, some jobIdv, webhookUrl⟩
                | .ok imgs =>
                  let result : SuccessBody :=
                    { job_id := jobIdv, status := "completed", source_url := url,
                      generated_at := env.nowIso,
                      processing_time_ms := env.elapsedMs, images := imgs }
                  let _completedTrace :=
                    if truthy webhookUrl then some (sendWebhook (env.webhookAttempt 1) 3)
                    else none
                  .ok result

/-- The `errorResult` object the catch block assembles, given the
recovered `source_url` value `su`. -/
def errorResult (env : HandlerEnv) (su : Option String) (ts : ThrowState) :
    ErrorBody :=
  { job_id := jsOrS ts.jobId env.freshErrorId,
    status := "failed",
    source_url := su,
    generated_at := env.nowIso,
    processing_time_ms := env.elapsedMs,
    error := ts.err.message.getD "unknown error",
    details := jsOrS ts.err.responseData (jsOrS ts.err.stack "No additional details") }

/-- The `catch (err)` block.  It re-parses `event.body` to recover
`source_url`; a body that failed to parse the first time throws again
here, and this second SyntaxError escapes the handler. -/
def handleCatch (env : HandlerEnv) (event : LambdaEvent) (ts : ThrowState) :
    Except JsError HttpResponse :=
  let sourceUrlE : Except JsError (Option String) :=
    if truthy event.body then
      match env.parseBody (event.body.getD "") with
      | none => .error (env.parseErr (event.body.getD ""))
      | some b => .ok b.url
    else .ok (some "unknown")
  match sourceUrlE with
  | .error e => .error e
  | .ok su =>
    let _failedTrace :=
      if truthy ts.webhookUrl then some (sendWebhook (env.webhookAttempt 1) 3)
      else none
    .ok { statusCode := 400, body := .failure (errorResult env su ts) }

/-- The exported Lambda `handler`: the `try` block, with every throw
routed to the catch block.  `.error` models an exception escaping the
handler (the invocation fails — surfaced by API Gateway as a 5xx). -/
def handler (env : HandlerEnv) (event : LambdaEvent) :
    Except JsError HttpResponse :=
  match handlerTry env event with
  | .ok s => .ok { statusCode := 200, body := .success s }
  | .error ts => handleCatch env event ts

/-! ## Concrete environments for witnesses and counterexamples -/

/-- A request body that parses to `{ url: "https://x.com" }`. -/
def okBody : String := "\x7b\"url\":\"https://x.com\"\x7d"

/-- A request body that parses to an object without a `url` field. -/
def noUrlBody : String := "\x7b\"foo\":1\x7d"

/-- A concrete environment: `okBody` parses, the URL is well formed and
https, the cache misses, scrape and pipeline succeed, webhooks succeed. -/
def envBase : HandlerEnv :=
  { parseBody := fun s =>
      if s = okBody then some { url := some "https://x.com" } else none,
    parseErr := fun _ => { message := some "Unexpected token in JSON" },
    errStack := fun m =>
      some ("Error: " ++ m ++ " at handler (/var/task/index.js:47:29)"),
    urlProtocol := fun u => if u = "https://x.com" then some "https:" else none,
    urlErr := fun _ => { message := some "Invalid URL" },
    freshJobId := "job_1700000000000_abc123xyz",
    freshErrorId := "error_1700000000000",
    nowIso := "2024-01-01T00:00:00.000Z",
    elapsedMs := 1234,
    cacheGet := .ok none,
    cachePut := .ok (),
    scrapeHome := .ok "homepage-payload",
    pipelineRest := fun _ =>
      .ok [{ url := "https://x.com/a.png", alt := "",
             landing_page := "https://x.com", hash := 3 }],
    webhookAttempt := fun _ _ => true }

/-- As `envBase`, but the cache write-through rejects. -/
def envPutFail : HandlerEnv :=
  { envBase with cachePut := .error { message := some "AccessDenied" } }

/-- As `envBase`, but every body parses to an object without `url`. -/
def envNoUrl : HandlerEnv :=
  { envBase with parseBody := fun _ => some {} }

/-! ## C3 -/

/-- C3 (code bug): the handler does not return a response for every
request event — when `event.body` is present but not valid JSON, the
first `JSON.parse` throw is caught, but the catch block re-parses
`event.body` to recover `source_url`, and that second SyntaxError escapes
the handler: the invocation fails with an unhandled exception (surfaced
as a 5xx) instead of the structured 400 payload. -/
theorem handler_throws_on_malformed_body (env : HandlerEnv)
    (h : env.parseBody "not json" = none) :
    handler env { body := some "not json" } = .error (env.parseErr "not json") := by
  unfold handler handlerTry handleCatch
  simp [truthy, h]

/-- Witness for `handler_throws_on_malformed_body` at a concrete
environment. -/
theorem handler_throws_on_malformed_body_witness :
    envBase.parseBody "not json" = none ∧
    handler envBase { body := some "not json" }
      = .error (envBase.parseErr "not json") :=
  ⟨by decide, handler_throws_on_malformed_body envBase (by decide)⟩

/-! ## C8 -/

/-- The failure payload returned by the cache-write-failure run. -/
def putFailBody : ErrorBody :=
  { job_id := "job_1700000000000_abc123xyz",
    status := "failed",
    source_url := some "https://x.com",
    generated_at := "2024-01-01T00:00:00.000Z",
    processing_time_ms := 1234,
    error := "AccessDenied",
    details := "No additional details" }

/-- C8 counterexample: a run in which only the cache write-through fails
(`putObject` rejects with `AccessDenied`; scrape, pipeline and everything
else succeed) does not proceed as if the cache had missed — the whole job
fails and the handler returns the structured 400 failure payload. -/
theorem cache_write_failure_counterexample :
    envPutFail.cachePut = Except.error { message := some "AccessDenied" } ∧
    handler envPutFail { body := some okBody }
      = .ok { statusCode := 400, body := .failure putFailBody } := by
  exact ⟨rfl, rfl⟩

/-- C8 (amended): a cache read that reports not-found is treated as a
miss and the pipeline proceeds to a fresh scrape; but a storage failure
is not swallowed — whenever a valid request reaches the write-through and
`putObject` rejects, the error propagates to the job-level catch and the
job returns the structured 400 failure payload built from that error. -/
theorem cache_write_failure_fails_job (env : HandlerEnv) (s : String)
    (b : ReqBody) (u hp0 : String) (e : JsError)
    (hs : s ≠ "") (hp : env.parseBody s = some b) (hu : b.url = some u)
    (hu2 : u ≠ "") (hproto : env.urlProtocol u = some "https:")
    (hget : env.cacheGet = .ok none) (hscr : env.scrapeHome = .ok hp0)
    (hput : env.cachePut = .error e) :
    handler env { body := some s }
      = .ok { statusCode := 400,
              body := .failure (errorResult env (some u)
                                 ⟨e, some (jsOrS b.job_id env.freshJobId),
                                  b.webhook_url⟩) } := by
  unfold handler handlerTry handleCatch
  simp [truthy, hs, hp, hu, hu2, hproto, hget, hscr, hput]

/-- Witness for `cache_write_failure_fails_job` at a concrete input. -/
theorem cache_write_failure_fails_job_witness :
    okBody ≠ "" ∧
    handler envPutFail { body := some okBody }
      = .ok { statusCode := 400, body := .failure putFailBody } := by
  refine ⟨by decide, ?_⟩
  have h := cache_write_failure_fails_job envPutFail okBody
    { url := some "https://x.com" } "https://x.com" "homepage-payload"
    { message := some "AccessDenied" } (by decide) (by decide) rfl (by decide)
    (by decide) rfl rfl rfl
  exact h

/-! ## C9 -/

/-- The failure payload of the missing-`url` run: its `details` field is
the raw stack trace of the thrown error. -/
def stackBody : ErrorBody :=
  { job_id := "error_1700000000000",
    status := "failed",
    source_url := none,
    generated_at := "2024-01-01T00:00:00.000Z",
    processing_time_ms := 1234,
    error := "url missing",
    details := "Error: url missing at handler (/var/task/index.js:47:29)" }

/-- C9 counterexample: when the thrown error carries no upstream response
data, the failure payload's `details` field is the error's raw stack
trace (`err.response?.data || err.stack || 'No additional details'`) —
here the 400 payload for a request missing `url` carries the stack trace
verbatim. -/
theorem errorResult_stack_counterexample :
    handler envNoUrl { body := some noUrlBody }
      = .ok { statusCode := 400, body := .failure stackBody } ∧
    envNoUrl.errStack "url missing" = some stackBody.details := by
  exact ⟨rfl, rfl⟩

/-- A concrete thrown error for the witness below. -/
def tsBoom : ThrowState :=
  { err := { message := some "boom", stack := some "trace" },
    jobId := none, webhookUrl := none }

/-- C9 (amended): whenever the catch block produces a response (the body,
if present, re-parses), the failure payload is a structured object with
status "failed", a human-readable `error` equal to the thrown error's
message (or "unknown error"), and a best-effort `details` that is the
upstream response data when present, otherwise the error's raw stack
trace when present, otherwise a fixed placeholder — so `details` can be a
raw stack trace. -/
theorem errorResult_shape (env : HandlerEnv) (event : LambdaEvent)
    (ts : ThrowState) (s : String) (b : ReqBody)
    (hb : event.body = some s) (hs : s ≠ "") (hp : env.parseBody s = some b) :
    ∃ fb : ErrorBody,
      handleCatch env event ts
        = .ok { statusCode := 400, body := .failure fb } ∧
      fb.status = "failed" ∧
      fb.error = ts.err.message.getD "unknown error" ∧
      ((∃ d, ts.err.responseData = some d ∧ fb.details = d) ∨
       (∃ st, ts.err.stack = some st ∧ fb.details = st) ∨
       fb.details = "No additional details") := by
  have hcatch : handleCatch env event ts
      = .ok { statusCode := 400, body := .failure (errorResult env b.url ts) } := by
    unfold handleCatch
    rw [hb]
    simp [truthy, hs, hp]
  refine ⟨errorResult env b.url ts, hcatch, rfl, rfl, ?_⟩
  cases hrd : ts.err.responseData with
  | some d =>
    by_cases hd : d = ""
    · cases hst : ts.err.stack with
      | some st =>
        by_cases hst2 : st = ""
        · right; right
          simp [errorResult, jsOrS, hrd, hd, hst, hst2]
        · right; left
          exact ⟨st, rfl, by simp [errorResult, jsOrS, hrd, hd, hst, hst2]⟩
      | none =>
        right; right
        simp [errorResult, jsOrS, hrd, hd, hst]
    · left
      exact ⟨d, rfl, by simp [errorResult, jsOrS, hrd, hd]⟩
  | none =>
    cases hst : ts.err.stack with
    | some st =>
      by_cases hst2 : st = ""
      · right; right
        simp [errorResult, jsOrS, hrd, hst, hst2]
      · right; left
        exact ⟨st, rfl, by simp [errorResult, jsOrS, hrd, hst, hst2]⟩
    | none =>
      right; right
      simp [errorResult, jsOrS, hrd, hst]

/-- Witness for `errorResult_shape` at a concrete input. -/
theorem errorResult_shape_witness :
    ({ body := some okBody } : LambdaEvent).body = some okBody ∧
    ∃ fb : ErrorBody,
      handleCatch envBase { body := some okBody } tsBoom
        = .ok { statusCode := 400, body := .failure fb } ∧
      fb.status = "failed" ∧
      fb.error = tsBoom.err.message.getD "unknown error" ∧
      ((∃ d, tsBoom.err.responseData = some d ∧ fb.details = d) ∨
       (∃ st, tsBoom.err.stack = some st ∧ fb.details = st) ∨
       fb.details = "No additional details") :=
  ⟨rfl, errorResult_shape envBase { body := some okBody } tsBoom okBody
    { url := some "https://x.com" } rfl (by decide) (by decide)⟩

/-! ## C10 -/

/-- C10: for every endpoint and payload, `sendWebhook` issues at most
`retries` POST attempts (default 3), awaiting `2^attempt` seconds (that
is, `2^attempt * 1000` ms) between consecutive failed attempts; and the
handler's returned response — status code and image list included — is
identical whatever the outcomes of the webhook POSTs are (success or an
exhausted retry budget), since every `sendWebhook` call is wrapped in a
swallowing try/catch. -/
theorem sendWebhook_bound_and_job_isolation (a : Nat → Bool) (retries : Nat)
    (env : HandlerEnv) (event : LambdaEvent) (w w' : Nat → Nat → Bool) :
    (sendWebhook a retries).attempts ≤ retries ∧
    (sendWebhook a retries).delaysMs
      = ((List.range ((sendWebhook a retries).attempts - 1)).map
          fun j => 2 ^ j * 1000) ∧
    handler { env with webhookAttempt := w } event
      = handler { env with webhookAttempt := w' } event := by
  refine ⟨?_, ?_, ?_⟩
  · simpa using sendWebhookGo_attempts_le a retries retries 0 (by omega)
  · rw [List.range_eq_range']
    exact sendWebhookGo_delays a retries retries 0 (by omega)
  · rfl

end Crawl
